import Mathlib

/-!
Verification development for the block-execution core of `i3status-rust`
(`src/blocks.rs`): the command/event data model, the `CommonApi` handle
(command batching and `flush`), the `recoverable` error-recovery wrapper,
the `BlockType` registry and its name parser, and the `CommonConfig`
shared-field extractor.

The Rust code is embedded shallowly: the channel send effect of
`mpsc::Sender::send` is modelled by a `chan_open` flag (the receiving side
is still alive) together with the list `sent` of requests delivered so far;
`tokio::time::Instant` is modelled as a `Nat`; the inbound event channel of
the degraded loop is modelled by the script of click events that resolve
before the retry deadline.  The field `log` of `CommonApi` is ghost
instrumentation: the cumulative list of every command ever pushed onto
`cmd_buf`, never cleared, used to state "buffered exactly once" properties.
-/

namespace I3statusRust

/-- Severity level of a widget.  Modelled from the spec: `widget.rs` is not
among the provided sources; spec glossary lists ordered urgency levels
(idle, good, warning, critical); only `Critical` is used by this core. -/
inductive State where
  | Idle
  | Info
  | Good
  | Warning
  | Critical
  deriving DecidableEq, Repr

/-- Formatted-text value.  The templating engine is out of scope for the
spec (treated as an opaque value), so a `Value` is an atom here. -/
structure Value where
  raw : String
  deriving DecidableEq, Repr

/-- Format specification, opaque to this core (spec treats the templating
engine as an external collaborator). -/
structure Format where
  raw : String
  deriving DecidableEq, Repr

/-- Modelled from the spec: `click.rs` (`MouseButton`) is not among the
provided sources.  Spec only distinguishes the left mouse button from all
other click buttons. -/
inductive MouseButton where
  | Left
  | Middle
  | Right
  | WheelUp
  | WheelDown
  deriving DecidableEq, Repr

/-- Modelled from the spec: `protocol/i3bar_event.rs` is not among the
provided sources.  Spec describes a click event as `Click(button, ...)`;
only the button matters to this core. -/
structure I3BarEvent where
  button : MouseButton
  deriving DecidableEq, Repr

/-- `BlockEvent` from `src/blocks.rs`. -/
inductive BlockEvent where
  | Click (event : I3BarEvent)
  | UpdateRequest
  deriving DecidableEq, Repr

/-- `RequestCmd` (crate root; its variants are exactly the commands the
spec's Command data model lists).  The one-shot reply channels of the
connection requests are modelled by opaque channel ids. -/
inductive RequestCmd where
  | Hide
  | Show
  | SetIcon (icon : String)
  | SetState (state : State)
  | SetText (text : String)
  | SetTexts (full short : String)
  | SetValues (values : List (String × Value))
  | SetFormat (format : Format)
  | SetFullScreen (value : Bool)
  | Preserve
  | Restore
  | GetDbusConnection (sender : Nat)
  | GetSystemDbusConnection (sender : Nat)
  deriving DecidableEq, Repr

/-- `Request` (crate root): the unit sent to the renderer. -/
structure Request where
  block_id : Nat
  cmds : List RequestCmd
  deriving DecidableEq, Repr

/-- Modelled from the spec: `config.rs` (`SharedConfig`) is not among the
provided sources; per the spec it is a read-only icon/theme lookup source,
modelled as an association list from icon names to resolved values. -/
structure SharedConfig where
  icons : List (String × String)
  deriving DecidableEq, Repr

/-- Modelled from the spec: `SharedConfig::get_icon` resolves a name in the
theme; an unknown name is an error. -/
def SharedConfig.get_icon (self : SharedConfig) (icon : String) : Except String String :=
  match self.icons.lookup icon with
  | some v => Except.ok v
  | none => Except.error ("Cannot find icon " ++ icon)

/-- `CommonApi` from `src/blocks.rs`.  `chan_open` and `sent` embed the
`request_sender` endpoint (receiver alive, requests delivered so far);
`log` is ghost instrumentation recording every command ever pushed. -/
structure CommonApi where
  id : Nat
  shared_config : SharedConfig
  chan_open : Bool
  sent : List Request
  cmd_buf : List RequestCmd
  error_interval : Nat
  error_format : Option String
  log : List RequestCmd
  deriving DecidableEq, Repr

/-- `self.cmd_buf.push(cmd)`, with the ghost log extended alongside. -/
def CommonApi.push (self : CommonApi) (cmd : RequestCmd) : CommonApi :=
  { self with cmd_buf := self.cmd_buf ++ [cmd], log := self.log ++ [cmd] }

/-- `CommonApi::hide`. -/
def CommonApi.hide (self : CommonApi) : CommonApi :=
  self.push RequestCmd.Hide

/-- `CommonApi::show`. -/
def CommonApi.show (self : CommonApi) : CommonApi :=
  self.push RequestCmd.Show

/-- `CommonApi::set_icon_raw`. -/
def CommonApi.set_icon_raw (self : CommonApi) (icon : String) : CommonApi :=
  self.push (RequestCmd.SetIcon icon)

/-- `CommonApi::set_state`. -/
def CommonApi.set_state (self : CommonApi) (state : State) : CommonApi :=
  self.push (RequestCmd.SetState state)

/-- `CommonApi::set_text`. -/
def CommonApi.set_text (self : CommonApi) (text : String) : CommonApi :=
  self.push (RequestCmd.SetText text)

/-- `CommonApi::set_texts`. -/
def CommonApi.set_texts (self : CommonApi) (full short : String) : CommonApi :=
  self.push (RequestCmd.SetTexts full short)

/-- `CommonApi::set_values`. -/
def CommonApi.set_values (self : CommonApi) (values : List (String × Value)) : CommonApi :=
  self.push (RequestCmd.SetValues values)

/-- `CommonApi::set_format`. -/
def CommonApi.set_format (self : CommonApi) (format : Format) : CommonApi :=
  self.push (RequestCmd.SetFormat format)

/-- `CommonApi::set_full_screen`. -/
def CommonApi.set_full_screen (self : CommonApi) (value : Bool) : CommonApi :=
  self.push (RequestCmd.SetFullScreen value)

/-- `CommonApi::preserve`. -/
def CommonApi.preserve (self : CommonApi) : CommonApi :=
  self.push RequestCmd.Preserve

/-- `CommonApi::restore`. -/
def CommonApi.restore (self : CommonApi) : CommonApi :=
  self.push RequestCmd.Restore

/-- `CommonApi::get_icon`. -/
def CommonApi.get_icon (self : CommonApi) (icon : String) : Except String String :=
  self.shared_config.get_icon icon

/-- `CommonApi::flush`: `std::mem::replace` empties the buffer first, then
the prior contents are sent as one `Request`; the send errors exactly when
the receiving side of the channel is gone. -/
def CommonApi.flush (self : CommonApi) : CommonApi × Except String Unit :=
  let cmds := self.cmd_buf
  let self' := { self with cmd_buf := [] }
  if self'.chan_open then
    ({ self' with sent := self'.sent ++ [{ block_id := self'.id, cmds := cmds }] },
      Except.ok ())
  else
    (self', Except.error "Failed to send Request")

/-- `CommonApi::set_icon`: an empty name pushes an icon-clearing command
without consulting the theme; a non-empty name is resolved through
`get_icon` and an unknown name propagates as the error, pushing nothing. -/
def CommonApi.set_icon (self : CommonApi) (icon : String) : Except String CommonApi := do
  let iconVal ← if icon.isEmpty then pure "" else self.get_icon icon
  pure (self.push (RequestCmd.SetIcon iconVal))

/-- Script of one degraded phase of `CommonApi::recoverable`: the error
text of the failed attempt of the wrapped operation, and the click events
of the inbound channel that resolve before the retry deadline of that
failure (the claims under verification only concern click events, so the
script carries no `UpdateRequest`). -/
structure FailScript where
  err : String
  clicks : List MouseButton
  deriving DecidableEq, Repr

/-- The inner (degraded-display) loop of `CommonApi::recoverable`: each
iteration redraws (SetText and SetFullScreen according to `focused`, with
the collapsed text being `error_format` if set, else the caller message),
flushes, and then waits for the retry deadline or the next click; a left
click toggles `focused`, any other button leaves it unchanged; the loop
breaks when the deadline fires (the click script is exhausted).  A failing
flush propagates out (`self.flush().await?`). -/
def degradedLoop (msg err : String) (clicks : List MouseButton) (api0 : CommonApi)
    (focused : Bool) : CommonApi × Bool × Except String Unit :=
  let api1 :=
    if focused then
      (api0.set_text err).set_full_screen true
    else
      (api0.set_text (api0.error_format.getD msg)).set_full_screen false
  match api1.flush with
  | (api2, Except.error e) => (api2, focused, Except.error e)
  | (api2, Except.ok _) =>
    match clicks with
    | [] => (api2, focused, Except.ok ())
    | b :: rest =>
      degradedLoop msg err rest api2 (if b = MouseButton.Left then !focused else focused)

/-- Result of a run of `CommonApi::recoverable`: the returned value (or the
propagated flush error), the api state at return, the final focused
sub-state, and the (ghost) times at which the wrapped operation was
attempted. -/
structure RunResult (T : Type) where
  result : Except String T
  api : CommonApi
  focused : Bool
  attempt_times : List Nat
  deriving Repr

/-- The outer loop of `CommonApi::recoverable`, driven by the script of
failures: each entry of `phases` is one failed attempt of the wrapped
operation (with its degraded phase's clicks), after which the operation
succeeds with `outcome`.  On the first failure only, `Preserve` is pushed;
each failure then computes `retry_at = now + error_interval`, pushes `Show`
and `SetState Critical` and enters the degraded loop; on success after at
least one failure, `SetFullScreen false` and `Restore` are pushed (not
flushed) before returning. -/
def recoverableGo {T : Type} (msg : String) (outcome : T) :
    List FailScript → CommonApi → Bool → Bool → Nat → List Nat → RunResult T
  | [], api, focused, been_err, now, times =>
    let api := if been_err then (api.set_full_screen false).restore else api
    { result := Except.ok outcome, api := api, focused := focused,
      attempt_times := times ++ [now] }
  | ⟨err, clicks⟩ :: rest, api, focused, been_err, now, times =>
    let api := if been_err then api else api.preserve
    let retry_at := now + api.error_interval
    let api := (api.show).set_state State.Critical
    match degradedLoop msg err clicks api focused with
    | (api, focused, Except.ok _) =>
      recoverableGo msg outcome rest api focused true retry_at (times ++ [now])
    | (api, focused, Except.error e) =>
      { result := Except.error e, api := api, focused := focused,
        attempt_times := times ++ [now] }

/-- `CommonApi::recoverable`, run at time `t0` over the explicit script
`phases` of failures of the wrapped operation (then a success returning
`outcome`).  `focused` and `been_err` start out false. -/
def CommonApi.recoverable {T : Type} (api : CommonApi) (phases : List FailScript)
    (outcome : T) (msg : String) (t0 : Nat) : RunResult T :=
  recoverableGo msg outcome phases api false false t0 []

/-- Specification-side description of one degraded redraw: the commands the
degraded loop pushes before each flush. -/
def drawCmds (errFmt : Option String) (msg err : String) (focused : Bool) :
    List RequestCmd :=
  if focused then
    [RequestCmd.SetText err, RequestCmd.SetFullScreen true]
  else
    [RequestCmd.SetText (errFmt.getD msg), RequestCmd.SetFullScreen false]

/-- How one click changes the degraded sub-state: the left button toggles
collapsed/focused, any other button leaves it unchanged. -/
def toggleFocus (focused : Bool) (b : MouseButton) : Bool :=
  if b = MouseButton.Left then !focused else focused

/-- The sequence of sub-states after each successive click of a degraded
phase. -/
def focusSeqTail (focused : Bool) : List MouseButton → List Bool
  | [] => []
  | b :: rest => toggleFocus focused b :: focusSeqTail (toggleFocus focused b) rest

/-- The sub-state after all clicks of a list have been processed. -/
def finalFocus (focused : Bool) : List MouseButton → Bool
  | [] => focused
  | b :: rest => finalFocus (toggleFocus focused b) rest

/-- Specification-side trace of a whole `recoverable` run: given the script
of failures, returns the per-flush command lists (in flush order), the
final focused sub-state, and the commands left in the buffer at return. -/
def runTrace (errFmt : Option String) (msg : String) :
    List FailScript → Bool → Bool → List (List RequestCmd) × Bool × List RequestCmd
  | [], focused, been_err =>
    ([], focused,
      if been_err then [RequestCmd.SetFullScreen false, RequestCmd.Restore] else [])
  | ⟨err, clicks⟩ :: rest, focused, been_err =>
    let lead := (if been_err then [] else [RequestCmd.Preserve])
      ++ [RequestCmd.Show, RequestCmd.SetState State.Critical]
    let t := runTrace errFmt msg rest (finalFocus focused clicks) true
    ((lead ++ drawCmds errFmt msg err focused)
        :: ((focusSeqTail focused clicks).map (drawCmds errFmt msg err) ++ t.1),
      t.2)

/-- Outcome of `CommonApi::event`.  The Rust method returns a plain
`BlockEvent` and has no error channel; a closed inbound channel makes it
panic ("events stream ended") instead of returning. -/
inductive EventOutcome where
  | value (event : BlockEvent)
  | panicked (msg : String)
  deriving DecidableEq, Repr

/-- `CommonApi::event`, as a function of what `event_receiver.recv().await`
resolved to: `some e` when an event was delivered, `none` exactly when the
channel is closed and empty (a still-pending `recv` resolves to neither). -/
def CommonApi.event (recvResult : Option BlockEvent) : EventOutcome :=
  match recvResult with
  | some event => EventOutcome.value event
  | none => EventOutcome.panicked "events stream ended"

/-- `BlockType` from the `define_blocks!` invocation of `src/blocks.rs`:
the closed set of known block kinds, in source order (`networkmanager` is
commented out there and so is not a kind).  The Rust enum omits the
`cfg`-gated kinds from a build that lacks their feature; here the type
always has all constructors and `BlockType.enabledIn` says which ones a
given build compiles in. -/
inductive BlockType where
  | apt
  | backlight
  | battery
  | bluetooth
  | cpu
  | custom
  | custom_dbus
  | disk_space
  | dnf
  | docker
  | external_ip
  | focused_window
  | github
  | hueshift
  | kdeconnect
  | load
  | maildir
  | menu
  | memory
  | music
  | net
  | notify
  | notmuch
  | nvidia_gpu
  | pacman
  | pomodoro
  | rofication
  | sound
  | speedtest
  | keyboard_layout
  | taskwarrior
  | temperature
  | time
  | toggle
  | uptime
  | watson
  | weather
  | xrandr
  deriving DecidableEq, Repr, Fintype

/-- The compile-time feature set of a build: `maildir` and `notmuch` are
the two `cfg(feature = ...)`-gated kinds of the `define_blocks!` list. -/
structure Features where
  maildir : Bool
  notmuch : Bool
  deriving DecidableEq, Repr

/-- Whether a kind is compiled into a build with the given features. -/
def BlockType.enabledIn (f : Features) : BlockType → Bool
  | BlockType.maildir => f.maildir
  | BlockType.notmuch => f.notmuch
  | _ => true

/-- The exact name of each kind (`stringify!` of the enum variant). -/
def BlockType.name : BlockType → String
  | BlockType.apt => "apt"
  | BlockType.backlight => "backlight"
  | BlockType.battery => "battery"
  | BlockType.bluetooth => "bluetooth"
  | BlockType.cpu => "cpu"
  | BlockType.custom => "custom"
  | BlockType.custom_dbus => "custom_dbus"
  | BlockType.disk_space => "disk_space"
  | BlockType.dnf => "dnf"
  | BlockType.docker => "docker"
  | BlockType.external_ip => "external_ip"
  | BlockType.focused_window => "focused_window"
  | BlockType.github => "github"
  | BlockType.hueshift => "hueshift"
  | BlockType.kdeconnect => "kdeconnect"
  | BlockType.load => "load"
  | BlockType.maildir => "maildir"
  | BlockType.menu => "menu"
  | BlockType.memory => "memory"
  | BlockType.music => "music"
  | BlockType.net => "net"
  | BlockType.notify => "notify"
  | BlockType.notmuch => "notmuch"
  | BlockType.nvidia_gpu => "nvidia_gpu"
  | BlockType.pacman => "pacman"
  | BlockType.pomodoro => "pomodoro"
  | BlockType.rofication => "rofication"
  | BlockType.sound => "sound"
  | BlockType.speedtest => "speedtest"
  | BlockType.keyboard_layout => "keyboard_layout"
  | BlockType.taskwarrior => "taskwarrior"
  | BlockType.temperature => "temperature"
  | BlockType.time => "time"
  | BlockType.toggle => "toggle"
  | BlockType.uptime => "uptime"
  | BlockType.watson => "watson"
  | BlockType.weather => "weather"
  | BlockType.xrandr => "xrandr"

/-- Every kind, in the source order of `define_blocks!`. -/
def allBlockTypes : List BlockType :=
  [BlockType.apt, BlockType.backlight, BlockType.battery, BlockType.bluetooth,
   BlockType.cpu, BlockType.custom, BlockType.custom_dbus, BlockType.disk_space,
   BlockType.dnf, BlockType.docker, BlockType.external_ip, BlockType.focused_window,
   BlockType.github, BlockType.hueshift, BlockType.kdeconnect, BlockType.load,
   BlockType.maildir, BlockType.menu, BlockType.memory, BlockType.music,
   BlockType.net, BlockType.notify, BlockType.notmuch, BlockType.nvidia_gpu,
   BlockType.pacman, BlockType.pomodoro, BlockType.rofication, BlockType.sound,
   BlockType.speedtest, BlockType.keyboard_layout, BlockType.taskwarrior,
   BlockType.temperature, BlockType.time, BlockType.toggle, BlockType.uptime,
   BlockType.watson, BlockType.weather, BlockType.xrandr]

/-- The name table the `visit_str` match arms enumerate. -/
def blockNames : List (String × BlockType) :=
  allBlockTypes.map fun b => (b.name, b)

/-- The error message of the arm for a kind excluded at compile time. -/
def disabledMsg (v : String) : String :=
  "Block '" ++ v ++ "' has to be enabled at the compile time"

/-- The error message of the wildcard (unknown kind) arm. -/
def unknownMsg (v : String) : String :=
  "Unknown block '" ++ v ++ "'"

/-- The `visit_str` body of `impl Deserialize for BlockType`: exact match
against all known names first; a name whose kind the build excludes fails
with the distinct disabled-at-compile-time error; no match at all falls to
the wildcard arm with the unknown-block error. -/
def BlockType.visit_str (f : Features) (v : String) : Except String BlockType :=
  match blockNames.lookup v with
  | some b => if b.enabledIn f then Except.ok b else Except.error (disabledMsg v)
  | none => Except.error (unknownMsg v)

/-- A `toml::Value`, restricted to the shapes the shared-config contract
touches (string, integer, boolean, array, table).  A table is an
association list whose keys are unique (the toml parser guarantees key
uniqueness, so list removal and map removal agree). -/
inductive TomlValue where
  | str (s : String)
  | int (n : Int)
  | bool (b : Bool)
  | arr (xs : List TomlValue)
  | table (t : List (String × TomlValue))

/-- Modelled from the spec: `click.rs` (`ClickHandler`) is not among the
provided sources.  Per the spec a click-handler spec is a list of click
rules; the rules themselves are opaque values here, and the
`#[serde(default)]` value is the empty list. -/
structure ClickHandler where
  rules : List TomlValue

/-- Modelled from the spec: `ClickHandler` deserializes from an array of
click rules; any other shape is a configuration error. -/
def ClickHandler.deserialize (v : TomlValue) : Except String ClickHandler :=
  match v with
  | TomlValue.arr xs => Except.ok { rules := xs }
  | _ => Except.error "invalid shape for field click"

/-- `CommonConfig` from `src/blocks.rs` (shared fields of every block's
configuration).  `block` has no serde default; `error_interval` defaults to
5; the remaining fields default to empty/absent. -/
structure CommonConfig where
  block : BlockType
  click : ClickHandler
  signal : Option Int
  icons_format : Option String
  theme_overrides : Option (List (String × String))
  error_interval : Nat
  error_format : Option String

/-- `CommonConfig::default_error_interval`. -/
def CommonConfig.default_error_interval : Nat := 5

/-- The `FIELDS` constant of `CommonConfig::new`, in source order. -/
def commonFields : List String :=
  ["block", "click", "signal", "theme_overrides", "icons_format",
   "error_interval", "error_format"]

/-- Deserialization of the required `block` field: a string parsed through
`BlockType`'s deserializer; a missing field has no default and errors. -/
def parseBlockField (f : Features) (t : List (String × TomlValue)) :
    Except String BlockType :=
  match t.lookup "block" with
  | some (TomlValue.str s) => BlockType.visit_str f s
  | some _ => Except.error "invalid shape for field block"
  | none => Except.error "missing field block"

/-- Deserialization of the defaulted `click` field. -/
def parseClickField (t : List (String × TomlValue)) : Except String ClickHandler :=
  match t.lookup "click" with
  | some v => ClickHandler.deserialize v
  | none => Except.ok { rules := [] }

/-- Deserialization of `signal : Option<i32>`: an integer within the i32
range, or absent. -/
def parseSignalField (t : List (String × TomlValue)) : Except String (Option Int) :=
  match t.lookup "signal" with
  | some (TomlValue.int n) =>
    if -2147483648 ≤ n ∧ n < 2147483648 then Except.ok (some n)
    else Except.error "invalid value for field signal"
  | some _ => Except.error "invalid shape for field signal"
  | none => Except.ok none

/-- Deserialization of `icons_format : Option<String>`. -/
def parseIconsFormatField (t : List (String × TomlValue)) :
    Except String (Option String) :=
  match t.lookup "icons_format" with
  | some (TomlValue.str s) => Except.ok (some s)
  | some _ => Except.error "invalid shape for field icons_format"
  | none => Except.ok none

/-- A toml table all of whose values are strings, read as a string map. -/
def asStringMap : List (String × TomlValue) → Option (List (String × String))
  | [] => some []
  | (k, TomlValue.str s) :: rest => (asStringMap rest).map fun m => (k, s) :: m
  | _ :: _ => none

/-- Deserialization of `theme_overrides : Option<HashMap<String, String>>`. -/
def parseThemeOverridesField (t : List (String × TomlValue)) :
    Except String (Option (List (String × String))) :=
  match t.lookup "theme_overrides" with
  | some (TomlValue.table kvs) =>
    match asStringMap kvs with
    | some m => Except.ok (some m)
    | none => Except.error "invalid shape for field theme_overrides"
  | some _ => Except.error "invalid shape for field theme_overrides"
  | none => Except.ok none

/-- Deserialization of `error_interval : u64` with serde default 5: a toml
integer is an i64, so a negative value cannot convert to u64 and errors. -/
def parseErrorIntervalField (t : List (String × TomlValue)) : Except String Nat :=
  match t.lookup "error_interval" with
  | some (TomlValue.int n) =>
    if 0 ≤ n then Except.ok n.toNat
    else Except.error "invalid value for field error_interval"
  | some _ => Except.error "invalid shape for field error_interval"
  | none => Except.ok CommonConfig.default_error_interval

/-- Deserialization of `error_format : Option<String>`. -/
def parseErrorFormatField (t : List (String × TomlValue)) :
    Except String (Option String) :=
  match t.lookup "error_format" with
  | some (TomlValue.str s) => Except.ok (some s)
  | some _ => Except.error "invalid shape for field error_format"
  | none => Except.ok none

/-- `CommonConfig::deserialize` over a (moved-out) table of shared fields. -/
def CommonConfig.deserialize (f : Features) (t : List (String × TomlValue)) :
    Except String CommonConfig := do
  let block ← parseBlockField f t
  let click ← parseClickField t
  let signal ← parseSignalField t
  let theme_overrides ← parseThemeOverridesField t
  let icons_format ← parseIconsFormatField t
  let error_interval ← parseErrorIntervalField t
  let error_format ← parseErrorFormatField t
  pure { block := block, click := click, signal := signal,
         icons_format := icons_format, theme_overrides := theme_overrides,
         error_interval := error_interval, error_format := error_format }

/-- `CommonConfig::new`: when `from` is a table, each name of `FIELDS` is
removed from it (the mutation survives whatever the deserialization
returns, as with `&mut toml::Value` in the source) and inserted into a
fresh table, which the shared fields are then deserialized from; a
non-table `from` is left untouched and the fresh table stays empty.
Returns the mutated document together with the deserialization result. -/
def CommonConfig.new (f : Features) (
    from_ : TomlValue) : TomlValue × Except String CommonConfig :=
  match from_ with
  | TomlValue.table t =>
    (TomlValue.table (t.filter fun p => !(commonFields.contains p.1)),
      CommonConfig.deserialize f (t.filter fun p => commonFields.contains p.1))
  | v => (v, CommonConfig.deserialize f [])

/-- A concrete api handle with an open command channel, used to instantiate
theorems with hypotheses at concrete inputs. -/
def sampleApi : CommonApi :=
  { id := 7, shared_config := { icons := [("pomodoro", "icon-value")] },
    chan_open := true, sent := [], cmd_buf := [], error_interval := 5,
    error_format := none, log := [] }

/-- The same handle with the receiving side of the command channel gone. -/
def closedApi : CommonApi :=
  { sampleApi with chan_open := false }

/-! ## Theorems -/

/-- A lookup over a list none of whose keys matches is `none`. -/
theorem lookup_eq_none_of_forall {α β : Type} [BEq α] (l : List (α × β)) (v : α)
    (h : ∀ p ∈ l, (v == p.1) = false) : l.lookup v = none := by
  induction l with
  | nil => rfl
  | cons p rest ih =>
    obtain ⟨k, b⟩ := p
    have hp := h (k, b) (List.mem_cons_self _ _)
    simp only [List.lookup, hp]
    exact ih fun q hq => h q (List.mem_cons_of_mem _ hq)

/-- Every key of the name table is the name of some kind. -/
theorem blockNames_fst (p : String × BlockType) (hp : p ∈ blockNames) :
    ∃ b : BlockType, p.1 = BlockType.name b := by
  obtain ⟨b, _, rfl⟩ := List.mem_map.mp hp
  exact ⟨b, rfl⟩

/-- The degraded sub-state trace has one entry per click. -/
theorem focusSeqTail_length (focused : Bool) (clicks : List MouseButton) :
    (focusSeqTail focused clicks).length = clicks.length := by
  induction clicks generalizing focused with
  | nil => rfl
  | cons b rest ih => simp [focusSeqTail, ih]

/-- Characterization of the degraded inner loop on an open channel: it
flushes once per iteration (the first request also carrying whatever was
buffered before the loop), empties the buffer, ends in the sub-state the
clicks produce, and succeeds. -/
theorem degradedLoop_eq (msg err : String) (clicks : List MouseButton)
    (api : CommonApi) (focused : Bool) (hopen : api.chan_open = true) :
    degradedLoop msg err clicks api focused =
      ({ api with
          cmd_buf := [],
          sent := api.sent ++
            ({ block_id := api.id,
               cmds := api.cmd_buf ++ drawCmds api.error_format msg err focused }
              :: (focusSeqTail focused clicks).map fun fc =>
                { block_id := api.id, cmds := drawCmds api.error_format msg err fc }),
          log := api.log ++ (drawCmds api.error_format msg err focused
            ++ ((focusSeqTail focused clicks).map
                (drawCmds api.error_format msg err)).flatten) },
        finalFocus focused clicks, Except.ok ()) := by
  induction clicks generalizing api focused with
  | nil =>
    obtain ⟨i, sc, co, snt, buf, ei, ef, lg⟩ := api
    simp only [CommonApi.chan_open] at hopen
    subst hopen
    cases focused <;>
      simp [degradedLoop, CommonApi.set_text, CommonApi.set_full_screen,
        CommonApi.push, CommonApi.flush, drawCmds, focusSeqTail, finalFocus,
        List.append_assoc]
  | cons b rest ih =>
    obtain ⟨i, sc, co, snt, buf, ei, ef, lg⟩ := api
    simp only [CommonApi.chan_open] at hopen
    subst hopen
    cases focused <;>
      simp [degradedLoop, CommonApi.set_text, CommonApi.set_full_screen,
        CommonApi.push, CommonApi.flush, ih, focusSeqTail, finalFocus, toggleFocus,
        drawCmds, List.append_assoc]

/-- Shifting an arithmetic attempt-time progression by one step. -/
theorem range_times_shift (now iv n : Nat) :
    (List.range (n + 1 + 1)).map (fun k => now + k * iv)
      = now :: (List.range (n + 1)).map (fun k => now + iv + k * iv) := by
  rw [List.range_succ_eq_map]
  simp only [List.map_cons, List.map_map]
  congr 1
  · simp
  · apply List.map_congr_left
    intro k _
    simp only [Function.comp_apply, Nat.succ_mul]
    omega

/-- Characterization of a whole `recoverable` run on an open channel with
an initially empty buffer: the run returns the success value, the flushed
requests are exactly the trace `runTrace` describes (all tagged with this
block's id), the final buffer holds the trace's unflushed tail, the ghost
log is the concatenation of everything pushed, the final sub-state is the
trace's, and the attempts run at `now`, `now + error_interval`,
`now + 2 * error_interval`, and so on, one per failure plus the success. -/
theorem recoverableGo_eq {T : Type} (msg : String) (outcome : T)
    (phases : List FailScript) (api : CommonApi) (focused been_err : Bool)
    (now : Nat) (times : List Nat) (hopen : api.chan_open = true)
    (hbuf : api.cmd_buf = []) :
    recoverableGo msg outcome phases api focused been_err now times =
      { result := Except.ok outcome,
        api := { api with
          cmd_buf := (runTrace api.error_format msg phases focused been_err).2.2,
          sent := api.sent ++ (runTrace api.error_format msg phases focused been_err).1.map
            (fun cmds => { block_id := api.id, cmds := cmds }),
          log := api.log ++ ((runTrace api.error_format msg phases focused been_err).1.flatten
            ++ (runTrace api.error_format msg phases focused been_err).2.2) },
        focused := (runTrace api.error_format msg phases focused been_err).2.1,
        attempt_times := times ++ (List.range (phases.length + 1)).map
          (fun k => now + k * api.error_interval) } := by
  induction phases generalizing api focused been_err now times with
  | nil =>
    obtain ⟨i, sc, co, snt, buf, ei, ef, lg⟩ := api
    simp only [CommonApi.chan_open] at hopen
    simp only [CommonApi.cmd_buf] at hbuf
    subst hopen
    subst hbuf
    cases been_err <;>
      simp [recoverableGo, runTrace, CommonApi.set_full_screen, CommonApi.restore,
        CommonApi.push, List.append_assoc, List.range_succ]
  | cons p rest ih =>
    obtain ⟨err, clicks⟩ := p
    obtain ⟨i, sc, co, snt, buf, ei, ef, lg⟩ := api
    simp only [CommonApi.chan_open] at hopen
    simp only [CommonApi.cmd_buf] at hbuf
    subst hopen
    subst hbuf
    cases been_err <;>
      · simp [recoverableGo, CommonApi.preserve, CommonApi.show, CommonApi.set_state,
          CommonApi.push, degradedLoop_eq, ih, runTrace, List.append_assoc,
          range_times_shift]

/-- Degraded inner loop on a closed channel: the very first redraw's flush
fails and propagates, whatever the click script; the draw commands were
pushed (and so logged) but nothing was sent, the buffer is left empty. -/
theorem degradedLoop_closed (msg err : String) (clicks : List MouseButton)
    (api : CommonApi) (focused : Bool) (hc : api.chan_open = false) :
    degradedLoop msg err clicks api focused =
      ({ api with
          cmd_buf := [],
          log := api.log ++ drawCmds api.error_format msg err focused },
        focused, Except.error "Failed to send Request") := by
  obtain ⟨i, sc, co, snt, buf, ei, ef, lg⟩ := api
  simp only [CommonApi.chan_open] at hc
  subst hc
  cases focused <;>
    simp [degradedLoop, CommonApi.set_text, CommonApi.set_full_screen,
      CommonApi.push, CommonApi.flush, drawCmds]

/-- A `recoverable` run on a closed channel: the first failure's first
flush error propagates out as the result, after `Preserve` (on a first
failure), `Show`, `SetState Critical` and one redraw were pushed. -/
theorem recoverableGo_closed {T : Type} (msg : String) (outcome : T) (err : String)
    (clicks : List MouseButton) (rest : List FailScript) (api : CommonApi)
    (focused been_err : Bool) (now : Nat) (times : List Nat)
    (hc : api.chan_open = false) :
    recoverableGo msg outcome (⟨err, clicks⟩ :: rest) api focused been_err now times =
      { result := Except.error "Failed to send Request",
        api := { api with
          cmd_buf := [],
          log := api.log ++ ((if been_err then [] else [RequestCmd.Preserve])
            ++ ([RequestCmd.Show, RequestCmd.SetState State.Critical]
              ++ drawCmds api.error_format msg err focused)) },
        focused := focused,
        attempt_times := times ++ [now] } := by
  obtain ⟨i, sc, co, snt, buf, ei, ef, lg⟩ := api
  simp only [CommonApi.chan_open] at hc
  subst hc
  cases been_err <;>
    simp [recoverableGo, CommonApi.preserve, CommonApi.show, CommonApi.set_state,
      CommonApi.push, degradedLoop_closed, List.append_assoc]

/-- The commands of a degraded redraw contain no `Preserve`. -/
theorem drawCmds_count_preserve (ef : Option String) (msg err : String) (fc : Bool) :
    (drawCmds ef msg err fc).count RequestCmd.Preserve = 0 := by
  cases fc <;> simp [drawCmds]

/-- The commands of a degraded redraw contain no `Restore`. -/
theorem drawCmds_count_restore (ef : Option String) (msg err : String) (fc : Bool) :
    (drawCmds ef msg err fc).count RequestCmd.Restore = 0 := by
  cases fc <;> simp [drawCmds]

/-- A concatenation of degraded redraws contains none of a command absent
from every single redraw. -/
theorem count_draws_flatten (ef : Option String) (msg err : String) (c : RequestCmd)
    (hc : ∀ fc, (drawCmds ef msg err fc).count c = 0) (fs : List Bool) :
    ((fs.map (drawCmds ef msg err)).flatten).count c = 0 := by
  induction fs with
  | nil => rfl
  | cons f rest ih => simp [List.count_append, hc, ih]

/-- After at least one failure the run trace always leaves exactly the
restoration commands in the buffer. -/
theorem runTrace_fin_true (ef : Option String) (msg : String) :
    ∀ (phases : List FailScript) (fc : Bool),
      (runTrace ef msg phases fc true).2.2
        = [RequestCmd.SetFullScreen false, RequestCmd.Restore] := by
  intro phases
  induction phases with
  | nil => intro fc; rfl
  | cons p rest ih =>
    intro fc
    obtain ⟨err, clicks⟩ := p
    simp [runTrace, ih]

/-- No flushed request of a run trace ever carries `Restore`. -/
theorem runTrace_flatten_restore (ef : Option String) (msg : String) :
    ∀ (phases : List FailScript) (fc be : Bool),
      ((runTrace ef msg phases fc be).1.flatten).count RequestCmd.Restore = 0 := by
  intro phases
  induction phases with
  | nil => intro fc be; rfl
  | cons p rest ih =>
    intro fc be
    obtain ⟨err, clicks⟩ := p
    cases be <;>
      simp [runTrace, List.count_append, drawCmds_count_restore,
        count_draws_flatten ef msg err RequestCmd.Restore
          (drawCmds_count_restore ef msg err), ih]

/-- After the first failure the trace never flushes another `Preserve` and
leaves none in the buffer. -/
theorem runTrace_preserve_true (ef : Option String) (msg : String) :
    ∀ (phases : List FailScript) (fc : Bool),
      ((runTrace ef msg phases fc true).1.flatten).count RequestCmd.Preserve = 0
        ∧ ((runTrace ef msg phases fc true).2.2).count RequestCmd.Preserve = 0 := by
  intro phases
  induction phases with
  | nil => intro fc; exact ⟨rfl, rfl⟩
  | cons p rest ih =>
    intro fc
    obtain ⟨err, clicks⟩ := p
    refine ⟨?_, ?_⟩
    · simp [runTrace, List.count_append, drawCmds_count_preserve,
        count_draws_flatten ef msg err RequestCmd.Preserve
          (drawCmds_count_preserve ef msg err), (ih _).1]
    · simp [runTrace, (ih _).2]

/-- C1: for every `CommonApi`, `flush` empties the buffer (so a command
pushed afterwards starts a fresh buffer and cannot appear in the flushed
request), and when the receiving side is alive it sends exactly one
`Request` tagged with this block's id carrying exactly the buffered
commands in order (an empty list included), returning ok; when the
receiving side is gone it sends nothing and returns the error, the buffer
being empty either way; the result is ok exactly when the receiver is
alive. -/
theorem flush_spec (api : CommonApi) :
    api.flush.1.cmd_buf = [] ∧
    (∀ c : RequestCmd, ((api.flush.1).push c).cmd_buf = [c]) ∧
    (api.chan_open = true →
      api.flush.1.sent = api.sent ++ [{ block_id := api.id, cmds := api.cmd_buf }] ∧
      api.flush.2 = Except.ok ()) ∧
    (api.chan_open = false →
      api.flush.1.sent = api.sent ∧
      api.flush.2 = Except.error "Failed to send Request") ∧
    (api.flush.2.isOk = true ↔ api.chan_open = true) := by
  cases h : api.chan_open <;>
    simp [CommonApi.flush, CommonApi.push, h, Except.isOk, Except.toBool]

/-- Witness for C1: `flush` on a concrete handle with three buffered
commands and an open channel sends them as one request, and on a concrete
closed-channel handle errors with an empty buffer. -/
theorem flush_spec_witness :
    ({ sampleApi with
        cmd_buf := [RequestCmd.Show, RequestCmd.Hide, RequestCmd.Preserve] } :
      CommonApi).flush.1.sent
        = [{ block_id := 7,
             cmds := [RequestCmd.Show, RequestCmd.Hide, RequestCmd.Preserve] }] ∧
    (closedApi.flush.1.cmd_buf = [] ∧
      closedApi.flush.2 = Except.error "Failed to send Request") := by
  refine ⟨?_, (flush_spec closedApi).1, ((flush_spec closedApi).2.2.2.1 rfl).2⟩
  have h := ((flush_spec { sampleApi with
    cmd_buf := [RequestCmd.Show, RequestCmd.Hide, RequestCmd.Preserve] }).2.2.1 rfl).1
  simpa [sampleApi] using h

/-- C8: `set_icon` with the empty name always succeeds (for every handle,
in particular whatever the theme table holds) and pushes the icon-clearing
`SetIcon ""`; with a non-empty name it resolves the name through the theme
lookup and pushes `SetIcon` of the resolved value on success, while on
lookup failure it returns that error and pushes nothing (the handle is not
returned, its buffer untouched). -/
theorem set_icon_spec (api : CommonApi) :
    api.set_icon "" = Except.ok (api.push (RequestCmd.SetIcon "")) ∧
    (∀ name v, name ≠ "" → api.get_icon name = Except.ok v →
      api.set_icon name = Except.ok (api.push (RequestCmd.SetIcon v))) ∧
    (∀ name e, name ≠ "" → api.get_icon name = Except.error e →
      api.set_icon name = Except.error e) := by
  refine ⟨rfl, ?_, ?_⟩ <;>
    · intro name x hne h
      have hie : name.isEmpty = false := by
        rw [Bool.eq_false_iff]
        intro hc
        exact hne ((String.isEmpty_iff name).mp hc)
      simp [CommonApi.set_icon, hie, h]

/-- Witness for C8: on the concrete handle, resolving the registered name
pushes the resolved icon, and the unregistered name fails with the lookup
error. -/
theorem set_icon_spec_witness :
    sampleApi.set_icon "pomodoro"
      = Except.ok (sampleApi.push (RequestCmd.SetIcon "icon-value")) ∧
    sampleApi.set_icon "missing" = Except.error "Cannot find icon missing" :=
  ⟨(set_icon_spec sampleApi).2.1 "pomodoro" "icon-value" (by decide) rfl,
   (set_icon_spec sampleApi).2.2 "missing" "Cannot find icon missing" (by decide) rfl⟩

/-- C9: `event` yields every event the inbound channel delivers; when the
channel is closed while an event is still awaited (`recv` resolves to
`none`) it panics with "events stream ended" rather than returning, and a
normal return can only come from a delivered event (the method's return
type has no error alternative at all, mirroring the source's plain
`BlockEvent` return type). -/
theorem event_spec :
    (∀ e, CommonApi.event (some e) = EventOutcome.value e) ∧
    CommonApi.event none = EventOutcome.panicked "events stream ended" ∧
    (∀ r e, CommonApi.event r = EventOutcome.value e → r = some e) := by
  refine ⟨fun e => rfl, rfl, ?_⟩
  intro r e h
  cases r with
  | some x =>
    simp [CommonApi.event] at h
    rw [h]
  | none => simp [CommonApi.event] at h

/-- Witness for C9: the theorem applied at a concrete delivered event. -/
theorem event_spec_witness :
    CommonApi.event (some BlockEvent.UpdateRequest)
      = EventOutcome.value BlockEvent.UpdateRequest ∧
    some BlockEvent.UpdateRequest = some BlockEvent.UpdateRequest :=
  ⟨event_spec.1 BlockEvent.UpdateRequest,
   event_spec.2.2 (some BlockEvent.UpdateRequest) BlockEvent.UpdateRequest
     (event_spec.1 BlockEvent.UpdateRequest)⟩

/-- C3: parsing a block-kind name: the exact name of every kind compiled
into the build parses to that kind; the exact name of a kind excluded at
compile time fails with the disabled-at-build-time error; every other
string fails with the unknown-block error; and no disabled-style message
equals any unknown-style message.  All outcomes are values of the
deserializer's result type (the function is total), never runtime
failures. -/
theorem blockType_parse_spec (f : Features) :
    (∀ b : BlockType, BlockType.enabledIn f b = true →
      BlockType.visit_str f (BlockType.name b) = Except.ok b) ∧
    (∀ b : BlockType, BlockType.enabledIn f b = false →
      BlockType.visit_str f (BlockType.name b)
        = Except.error (disabledMsg (BlockType.name b))) ∧
    (∀ v : String, (∀ b : BlockType, v ≠ BlockType.name b) →
      BlockType.visit_str f v = Except.error (unknownMsg v)) ∧
    (∀ v w : String, disabledMsg v ≠ unknownMsg w) := by
  refine ⟨?_, ?_, ?_, ?_⟩
  · intro b hb
    cases b
    case maildir =>
      show (if BlockType.enabledIn f BlockType.maildir then Except.ok BlockType.maildir
        else Except.error (disabledMsg "maildir")) = Except.ok BlockType.maildir
      simp [hb]
    case notmuch =>
      show (if BlockType.enabledIn f BlockType.notmuch then Except.ok BlockType.notmuch
        else Except.error (disabledMsg "notmuch")) = Except.ok BlockType.notmuch
      simp [hb]
    all_goals rfl
  · intro b hb
    cases b
    case maildir =>
      show (if BlockType.enabledIn f BlockType.maildir then Except.ok BlockType.maildir
        else Except.error (disabledMsg "maildir"))
        = Except.error (disabledMsg "maildir")
      simp [hb]
    case notmuch =>
      show (if BlockType.enabledIn f BlockType.notmuch then Except.ok BlockType.notmuch
        else Except.error (disabledMsg "notmuch"))
        = Except.error (disabledMsg "notmuch")
      simp [hb]
    all_goals exact Bool.noConfusion hb
  · intro v hv
    unfold BlockType.visit_str
    rw [lookup_eq_none_of_forall]
    intro p hp
    obtain ⟨b, hb⟩ := blockNames_fst p hp
    rw [hb]
    exact beq_eq_false_iff_ne.mpr (hv b)
  · intro v w h
    have hd : (disabledMsg v).data.head? = (unknownMsg w).data.head? := by rw [h]
    simp only [disabledMsg, unknownMsg, String.data_append, List.head?_append] at hd
    have h1 : ("Block '").data.head? = some 'B' := rfl
    have h2 : ("Unknown block '").data.head? = some 'U' := rfl
    rw [h1, h2] at hd
    simp [Option.or] at hd

/-- Witness for C3: a full-featured build parses "apt"; a build without the
maildir feature rejects "maildir" as disabled; "foo" is unknown; and the
two concrete messages differ. -/
theorem blockType_parse_spec_witness :
    BlockType.visit_str { maildir := true, notmuch := true } "apt"
      = Except.ok BlockType.apt ∧
    BlockType.visit_str { maildir := false, notmuch := true } "maildir"
      = Except.error (disabledMsg "maildir") ∧
    BlockType.visit_str { maildir := true, notmuch := true } "foo"
      = Except.error (unknownMsg "foo") ∧
    disabledMsg "maildir" ≠ unknownMsg "maildir" :=
  ⟨(blockType_parse_spec _).1 BlockType.apt rfl,
   (blockType_parse_spec _).2.1 BlockType.maildir rfl,
   (blockType_parse_spec _).2.2.1 "foo" (by decide),
   (blockType_parse_spec ⟨true, true⟩).2.2.2 "maildir" "maildir"⟩

/-- C2: over a whole `recoverable` invocation (fresh ghost log, empty
buffer) whose wrapped operation fails at least once, exactly one `Preserve`
is buffered, and it is the very first command the invocation buffers — in
particular before every degraded-display command (`Show`, `SetState`,
`SetText`, `SetFullScreen`) of the invocation; no later failure buffers
another `Preserve`.  This holds whether or not the command channel stays
alive. -/
theorem recoverable_preserve_once {T : Type} (api : CommonApi)
    (phases : List FailScript) (outcome : T) (msg : String) (t0 : Nat)
    (hlog : api.log = []) (hbuf : api.cmd_buf = []) (hp : phases ≠ []) :
    ((api.recoverable phases outcome msg t0).api.log).head?
      = some RequestCmd.Preserve ∧
    ((api.recoverable phases outcome msg t0).api.log).count
      RequestCmd.Preserve = 1 := by
  obtain ⟨p, rest, rfl⟩ := List.exists_cons_of_ne_nil hp
  obtain ⟨err, clicks⟩ := p
  cases hco : api.chan_open
  · rw [CommonApi.recoverable] at *
    rw [recoverableGo_closed _ _ _ _ _ _ _ _ _ _ hco]
    simp [hlog, List.count_append, drawCmds_count_preserve]
  · rw [CommonApi.recoverable] at *
    rw [recoverableGo_eq _ _ _ _ _ _ _ _ hco hbuf]
    constructor
    · simp [hlog, runTrace]
    · simp [hlog, runTrace, List.count_append, drawCmds_count_preserve,
        count_draws_flatten api.error_format msg err RequestCmd.Preserve
          (drawCmds_count_preserve api.error_format msg err),
        (runTrace_preserve_true api.error_format msg rest
          (finalFocus false clicks)).1,
        (runTrace_preserve_true api.error_format msg rest
          (finalFocus false clicks)).2]

/-- Witness for C2: a concrete two-failure run buffers `Preserve` first and
exactly once. -/
theorem recoverable_preserve_once_witness :
    ((sampleApi.recoverable [⟨"boom", [MouseButton.Left]⟩, ⟨"again", []⟩]
        (0 : Nat) "msg" 0).api.log).head? = some RequestCmd.Preserve ∧
    ((sampleApi.recoverable [⟨"boom", [MouseButton.Left]⟩, ⟨"again", []⟩]
        (0 : Nat) "msg" 0).api.log).count RequestCmd.Preserve = 1 :=
  recoverable_preserve_once sampleApi [⟨"boom", [MouseButton.Left]⟩, ⟨"again", []⟩]
    0 "msg" 0 rfl rfl (by simp)

/-- C4: while `recoverable` is degraded the retry deadline is fixed at the
failure time plus `error_interval`: whatever the click scripts, attempt
`k` of a run with `n` failures executes at exactly `t0 + k *
error_interval` (so each retry fires at its failure's original deadline,
there is one attempt per failure plus the final success, and `n` is
unbounded); a left click only toggles the collapsed/focused sub-state and
costs one more redraw/flush, while a click with any other button leaves
the sub-state unchanged. -/
theorem recoverable_deadline_fixed {T : Type} (api : CommonApi) (outcome : T)
    (msg : String) (t0 : Nat) (hopen : api.chan_open = true)
    (hbuf : api.cmd_buf = []) :
    (∀ phases : List FailScript,
      (api.recoverable phases outcome msg t0).attempt_times
        = (List.range (phases.length + 1)).map fun k =>
            t0 + k * api.error_interval) ∧
    (∀ err clicks,
      (api.recoverable [⟨err, clicks⟩] outcome msg t0).focused
        = finalFocus false clicks) ∧
    (∀ fc cs, finalFocus fc (MouseButton.Left :: cs) = finalFocus (!fc) cs) ∧
    (∀ fc b cs, b ≠ MouseButton.Left → finalFocus fc (b :: cs) = finalFocus fc cs) ∧
    (∀ err clicks,
      ((api.recoverable [⟨err, clicks⟩] outcome msg t0).api.sent).length
        = api.sent.length + (clicks.length + 1)) := by
  refine ⟨?_, ?_, ?_, ?_, ?_⟩
  · intro phases
    rw [CommonApi.recoverable, recoverableGo_eq _ _ _ _ _ _ _ _ hopen hbuf]
    simp
  · intro err clicks
    rw [CommonApi.recoverable, recoverableGo_eq _ _ _ _ _ _ _ _ hopen hbuf]
    simp [runTrace]
  · intro fc cs
    simp [finalFocus, toggleFocus]
  · intro fc b cs hb
    simp [finalFocus, toggleFocus, hb]
  · intro err clicks
    rw [CommonApi.recoverable, recoverableGo_eq _ _ _ _ _ _ _ _ hopen hbuf]
    simp [runTrace, focusSeqTail_length]

/-- Witness for C4: with `error_interval = 5` and two clicks during the
single degraded phase, the two attempts still run at times 3 and 8. -/
theorem recoverable_deadline_fixed_witness :
    (sampleApi.recoverable [⟨"boom", [MouseButton.Left, MouseButton.Right]⟩]
        (0 : Nat) "msg" 3).attempt_times
      = (List.range 2).map fun k => 3 + k * sampleApi.error_interval :=
  (recoverable_deadline_fixed sampleApi (0 : Nat) "msg" 3 rfl rfl).1
    [⟨"boom", [MouseButton.Left, MouseButton.Right]⟩]

/-- C5: the requests a `recoverable` run flushes are exactly the degraded
trace: each failure contributes one request carrying `Show` and
`SetState Critical` once (preceded by `Preserve` on the first failure)
together with the first redraw, then one request per further redraw; a
collapsed redraw is `SetText` of the configured `error_format` (falling
back to the caller's message) plus `SetFullScreen false`, and a focused
redraw is `SetText` of the raw error text plus `SetFullScreen true`. -/
theorem recoverable_degraded_display {T : Type} (api : CommonApi) (outcome : T)
    (msg : String) (t0 : Nat) (hopen : api.chan_open = true)
    (hbuf : api.cmd_buf = []) :
    (∀ phases, (api.recoverable phases outcome msg t0).api.sent
      = api.sent ++ (runTrace api.error_format msg phases false false).1.map
          (fun cmds => { block_id := api.id, cmds := cmds })) ∧
    (∀ ef err clicks rest fc,
      (runTrace ef msg (⟨err, clicks⟩ :: rest) fc true).1
        = ([RequestCmd.Show, RequestCmd.SetState State.Critical]
            ++ drawCmds ef msg err fc)
          :: ((focusSeqTail fc clicks).map (drawCmds ef msg err)
            ++ (runTrace ef msg rest (finalFocus fc clicks) true).1)) ∧
    (∀ ef err clicks rest fc,
      (runTrace ef msg (⟨err, clicks⟩ :: rest) fc false).1
        = ([RequestCmd.Preserve, RequestCmd.Show, RequestCmd.SetState State.Critical]
            ++ drawCmds ef msg err fc)
          :: ((focusSeqTail fc clicks).map (drawCmds ef msg err)
            ++ (runTrace ef msg rest (finalFocus fc clicks) true).1)) ∧
    (∀ ef err, drawCmds ef msg err false
      = [RequestCmd.SetText (ef.getD msg), RequestCmd.SetFullScreen false]) ∧
    (∀ ef err, drawCmds ef msg err true
      = [RequestCmd.SetText err, RequestCmd.SetFullScreen true]) := by
  refine ⟨?_, ?_, ?_, fun ef err => rfl, fun ef err => rfl⟩
  · intro phases
    rw [CommonApi.recoverable, recoverableGo_eq _ _ _ _ _ _ _ _ hopen hbuf]
  · intro ef err clicks rest fc
    simp [runTrace]
  · intro ef err clicks rest fc
    simp [runTrace]

/-- Witness for C5: a single failure with no clicks flushes exactly one
request holding Preserve, Show, SetState Critical, the collapsed text and
full-screen off. -/
theorem recoverable_degraded_display_witness :
    (sampleApi.recoverable [⟨"oops", []⟩] (0 : Nat) "short" 0).api.sent
      = [{ block_id := 7,
           cmds := [RequestCmd.Preserve, RequestCmd.Show,
             RequestCmd.SetState State.Critical, RequestCmd.SetText "short",
             RequestCmd.SetFullScreen false] }] := by
  have h := (recoverable_degraded_display sampleApi (0 : Nat) "short" 0 rfl rfl).1
    [⟨"oops", []⟩]
  rw [h]
  rfl

/-- C6: if the wrapped operation succeeds on the very first attempt,
`recoverable` returns the value with the api handle completely unchanged
(nothing buffered, nothing sent); if it succeeds after at least one
failure, it returns the value with exactly `SetFullScreen false` and
`Restore`, in that order, left in the buffer — and no flushed request of
the invocation carries `Restore`, so the restoration commands are not
flushed by `recoverable` itself. -/
theorem recoverable_success_restore {T : Type} (api : CommonApi) (outcome : T)
    (msg : String) (t0 : Nat) (hopen : api.chan_open = true)
    (hbuf : api.cmd_buf = []) :
    ((api.recoverable [] outcome msg t0).result = Except.ok outcome ∧
      (api.recoverable [] outcome msg t0).api = api) ∧
    (∀ phases, phases ≠ [] →
      (api.recoverable phases outcome msg t0).result = Except.ok outcome ∧
      (api.recoverable phases outcome msg t0).api.cmd_buf
        = [RequestCmd.SetFullScreen false, RequestCmd.Restore] ∧
      ∀ r ∈ (api.recoverable phases outcome msg t0).api.sent.drop api.sent.length,
        RequestCmd.Restore ∉ r.cmds) := by
  constructor
  · constructor
    · rw [CommonApi.recoverable, recoverableGo_eq _ _ _ _ _ _ _ _ hopen hbuf]
    · rw [CommonApi.recoverable, recoverableGo_eq _ _ _ _ _ _ _ _ hopen hbuf]
      obtain ⟨i, sc, co, snt, buf, ei, ef, lg⟩ := api
      simp only [CommonApi.cmd_buf] at hbuf
      subst hbuf
      simp [runTrace]
  · intro phases hp
    obtain ⟨p, rest, rfl⟩ := List.exists_cons_of_ne_nil hp
    obtain ⟨err, clicks⟩ := p
    rw [CommonApi.recoverable, recoverableGo_eq _ _ _ _ _ _ _ _ hopen hbuf]
    refine ⟨rfl, ?_, ?_⟩
    · simp [runTrace, runTrace_fin_true]
    · intro r hr hmem
      simp only [CommonApi.sent] at hr
      rw [List.drop_left] at hr
      obtain ⟨cmds, hcm, rfl⟩ := List.mem_map.mp hr
      have hfl : RequestCmd.Restore
          ∈ (runTrace api.error_format msg (⟨err, clicks⟩ :: rest) false false).1.flatten :=
        List.mem_flatten.mpr ⟨cmds, hcm, hmem⟩
      have hcount := runTrace_flatten_restore api.error_format msg
        (⟨err, clicks⟩ :: rest) false false
      rw [List.count_eq_zero] at hcount
      exact hcount hfl

/-- Witness for C6: a first-attempt success leaves the concrete handle
untouched; a success after one failure leaves exactly the two restoration
commands buffered. -/
theorem recoverable_success_restore_witness :
    (sampleApi.recoverable [] (42 : Nat) "m" 0).api = sampleApi ∧
    (sampleApi.recoverable [⟨"e", []⟩] (42 : Nat) "m" 0).api.cmd_buf
      = [RequestCmd.SetFullScreen false, RequestCmd.Restore] :=
  ⟨(recoverable_success_restore sampleApi 42 "m" 0 rfl rfl).1.2,
   ((recoverable_success_restore sampleApi 42 "m" 0 rfl rfl).2
     [⟨"e", []⟩] (by simp)).2.1⟩

/-- C10: with a working command channel a `recoverable` run never returns
an error, however many times the wrapped operation fails (the only exits
are eventual success or the caller's cancellation); with the channel's
receiving side gone, the degraded redraw's flush failure propagates out of
`recoverable` as an error return, ending the invocation. -/
theorem recoverable_flush_error_propagates {T : Type} (api : CommonApi)
    (outcome : T) (msg : String) (t0 : Nat) :
    (api.chan_open = true → api.cmd_buf = [] →
      ∀ phases, (api.recoverable phases outcome msg t0).result
        = Except.ok outcome) ∧
    (api.chan_open = false →
      ∀ err clicks rest,
        (api.recoverable (⟨err, clicks⟩ :: rest) outcome msg t0).result
          = Except.error "Failed to send Request") := by
  constructor
  · intro hopen hbuf phases
    rw [CommonApi.recoverable, recoverableGo_eq _ _ _ _ _ _ _ _ hopen hbuf]
  · intro hc err clicks rest
    rw [CommonApi.recoverable, recoverableGo_closed _ _ _ _ _ _ _ _ _ _ hc]

/-- Witness for C10: a two-failure run on the open concrete handle returns
the success value; the closed handle's run errors. -/
theorem recoverable_flush_error_propagates_witness :
    (sampleApi.recoverable [⟨"e", []⟩, ⟨"f", [MouseButton.Left]⟩]
        (1 : Nat) "m" 0).result = Except.ok 1 ∧
    (closedApi.recoverable [⟨"e", []⟩] (1 : Nat) "m" 0).result
      = Except.error "Failed to send Request" :=
  ⟨(recoverable_flush_error_propagates sampleApi 1 "m" 0).1 rfl rfl _,
   (recoverable_flush_error_propagates closedApi 1 "m" 0).2 rfl "e" [] []⟩

/-- An `Except` is ok exactly when it is some `Except.ok`. -/
theorem except_isOk_iff {ε α : Type} (x : Except ε α) :
    x.isOk = true ↔ ∃ a, x = Except.ok a := by
  cases x <;> simp [Except.isOk, Except.toBool]

/-- Filtering by a key predicate the key satisfies preserves its lookup. -/
theorem lookup_filter_key {β : Type} (f : String → Bool)
    (t : List (String × β)) (k : String) (hk : f k = true) :
    (t.filter fun q => f q.1).lookup k = t.lookup k := by
  induction t with
  | nil => rfl
  | cons q rest ih =>
    obtain ⟨k', v⟩ := q
    by_cases h : k = k'
    · subst h
      simp [List.filter_cons, hk, List.lookup]
    · cases hf : f k' <;>
        simp [List.filter_cons, hf, List.lookup, beq_eq_false_iff_ne.mpr h, ih]

/-- Filtering by a key predicate the key fails removes its lookup. -/
theorem lookup_filter_key_neg {β : Type} (f : String → Bool)
    (t : List (String × β)) (k : String) (hk : f k = false) :
    (t.filter fun q => f q.1).lookup k = none := by
  induction t with
  | nil => rfl
  | cons q rest ih =>
    obtain ⟨k', v⟩ := q
    by_cases h : k = k'
    · subst h
      simp [List.filter_cons, hk, ih]
    · cases hf : f k' <;>
        simp [List.filter_cons, hf, List.lookup, beq_eq_false_iff_ne.mpr h, ih]

/-- The shared-field deserialization succeeds exactly when each field
parser succeeds with the corresponding field value. -/
theorem deserialize_eq_ok {f : Features} {t : List (String × TomlValue)}
    {cfg : CommonConfig} :
    CommonConfig.deserialize f t = Except.ok cfg ↔
      (parseBlockField f t = Except.ok cfg.block ∧
       parseClickField t = Except.ok cfg.click ∧
       parseSignalField t = Except.ok cfg.signal ∧
       parseThemeOverridesField t = Except.ok cfg.theme_overrides ∧
       parseIconsFormatField t = Except.ok cfg.icons_format ∧
       parseErrorIntervalField t = Except.ok cfg.error_interval ∧
       parseErrorFormatField t = Except.ok cfg.error_format) := by
  constructor
  · intro h
    simp only [CommonConfig.deserialize, bind, Except.bind, pure, Except.pure] at h
    repeat' split at h
    any_goals exact Except.noConfusion h
    rw [Except.ok.injEq] at h
    subst h
    simp_all
  · rintro ⟨h1, h2, h3, h4, h5, h6, h7⟩
    simp [CommonConfig.deserialize, bind, Except.bind, pure, Except.pure,
      h1, h2, h3, h4, h5, h6, h7]

/-- An absent `error_interval` parses to the default 5. -/
theorem parseErrorIntervalField_none {t : List (String × TomlValue)}
    (h : t.lookup "error_interval" = none) :
    parseErrorIntervalField t = Except.ok 5 := by
  simp [parseErrorIntervalField, h, CommonConfig.default_error_interval]

/-- A nonnegative integer `error_interval` parses to its value. -/
theorem parseErrorIntervalField_int {t : List (String × TomlValue)} {n : Int}
    (h : t.lookup "error_interval" = some (TomlValue.int n)) (hn : 0 ≤ n) :
    parseErrorIntervalField t = Except.ok n.toNat := by
  simp [parseErrorIntervalField, h, hn]

/-- A string-shaped `error_interval` fails to parse. -/
theorem parseErrorIntervalField_str {t : List (String × TomlValue)} {s : String}
    (h : t.lookup "error_interval" = some (TomlValue.str s)) :
    parseErrorIntervalField t = Except.error "invalid shape for field error_interval" := by
  simp [parseErrorIntervalField, h]

/-- A string-shaped `signal` fails to parse. -/
theorem parseSignalField_str {t : List (String × TomlValue)} {s : String}
    (h : t.lookup "signal" = some (TomlValue.str s)) :
    parseSignalField t = Except.error "invalid shape for field signal" := by
  simp [parseSignalField, h]

/-- A missing `block` field has no default and fails to parse. -/
theorem parseBlockField_none {f : Features} {t : List (String × TomlValue)}
    (h : t.lookup "block" = none) :
    parseBlockField f t = Except.error "missing field block" := by
  simp [parseBlockField, h]

/-- A missing `click` parses to the default handler. -/
theorem parseClickField_none {t : List (String × TomlValue)}
    (h : t.lookup "click" = none) :
    parseClickField t = Except.ok { rules := [] } := by
  simp [parseClickField, h]

/-- A missing `signal` parses to `none`. -/
theorem parseSignalField_none {t : List (String × TomlValue)}
    (h : t.lookup "signal" = none) : parseSignalField t = Except.ok none := by
  simp [parseSignalField, h]

/-- A missing `icons_format` parses to `none`. -/
theorem parseIconsFormatField_none {t : List (String × TomlValue)}
    (h : t.lookup "icons_format" = none) :
    parseIconsFormatField t = Except.ok none := by
  simp [parseIconsFormatField, h]

/-- A missing `theme_overrides` parses to `none`. -/
theorem parseThemeOverridesField_none {t : List (String × TomlValue)}
    (h : t.lookup "theme_overrides" = none) :
    parseThemeOverridesField t = Except.ok none := by
  simp [parseThemeOverridesField, h]

/-- A missing `error_format` parses to `none`. -/
theorem parseErrorFormatField_none {t : List (String × TomlValue)}
    (h : t.lookup "error_format" = none) :
    parseErrorFormatField t = Except.ok none := by
  simp [parseErrorFormatField, h]

/-- A `block` value of any non-string shape fails to parse. -/
theorem parseBlockField_wrong_shape {f : Features} {t : List (String × TomlValue)}
    {v : TomlValue} (h : t.lookup "block" = some v)
    (hv : ∀ s, v ≠ TomlValue.str s) :
    ∀ b, parseBlockField f t ≠ Except.ok b := by
  intro b hb
  cases v with
  | str s => exact hv s rfl
  | int n => simp [parseBlockField, h] at hb
  | bool x => simp [parseBlockField, h] at hb
  | arr xs => simp [parseBlockField, h] at hb
  | table kvs => simp [parseBlockField, h] at hb

/-- A `click` value of any non-array shape fails to parse. -/
theorem parseClickField_wrong_shape {t : List (String × TomlValue)}
    {v : TomlValue} (h : t.lookup "click" = some v)
    (hv : ∀ xs, v ≠ TomlValue.arr xs) :
    ∀ c, parseClickField t ≠ Except.ok c := by
  intro c hc
  cases v with
  | arr xs => exact hv xs rfl
  | str s => simp [parseClickField, ClickHandler.deserialize, h] at hc
  | int n => simp [parseClickField, ClickHandler.deserialize, h] at hc
  | bool x => simp [parseClickField, ClickHandler.deserialize, h] at hc
  | table kvs => simp [parseClickField, ClickHandler.deserialize, h] at hc

/-- A `signal` value of any non-integer shape fails to parse. -/
theorem parseSignalField_wrong_shape {t : List (String × TomlValue)}
    {v : TomlValue} (h : t.lookup "signal" = some v)
    (hv : ∀ n : Int, v ≠ TomlValue.int n) :
    ∀ x, parseSignalField t ≠ Except.ok x := by
  intro x hx
  cases v with
  | int n => exact hv n rfl
  | str s => simp [parseSignalField, h] at hx
  | bool b => simp [parseSignalField, h] at hx
  | arr xs => simp [parseSignalField, h] at hx
  | table kvs => simp [parseSignalField, h] at hx

/-- A `signal` integer outside the i32 range fails to parse. -/
theorem parseSignalField_out_of_range {t : List (String × TomlValue)}
    {n : Int} (h : t.lookup "signal" = some (TomlValue.int n))
    (hn : ¬(-2147483648 ≤ n ∧ n < 2147483648)) :
    ∀ x, parseSignalField t ≠ Except.ok x := by
  intro x hx
  simp [parseSignalField, h, hn] at hx

/-- An `icons_format` value of any non-string shape fails to parse. -/
theorem parseIconsFormatField_wrong_shape {t : List (String × TomlValue)}
    {v : TomlValue} (h : t.lookup "icons_format" = some v)
    (hv : ∀ s, v ≠ TomlValue.str s) :
    ∀ x, parseIconsFormatField t ≠ Except.ok x := by
  intro x hx
  cases v with
  | str s => exact hv s rfl
  | int n => simp [parseIconsFormatField, h] at hx
  | bool b => simp [parseIconsFormatField, h] at hx
  | arr xs => simp [parseIconsFormatField, h] at hx
  | table kvs => simp [parseIconsFormatField, h] at hx

/-- A `theme_overrides` value of any non-table shape fails to parse. -/
theorem parseThemeOverridesField_wrong_shape {t : List (String × TomlValue)}
    {v : TomlValue} (h : t.lookup "theme_overrides" = some v)
    (hv : ∀ kvs, v ≠ TomlValue.table kvs) :
    ∀ x, parseThemeOverridesField t ≠ Except.ok x := by
  intro x hx
  cases v with
  | table kvs => exact hv kvs rfl
  | str s => simp [parseThemeOverridesField, h] at hx
  | int n => simp [parseThemeOverridesField, h] at hx
  | bool b => simp [parseThemeOverridesField, h] at hx
  | arr xs => simp [parseThemeOverridesField, h] at hx

/-- A `theme_overrides` table holding any non-string value fails to
parse. -/
theorem parseThemeOverridesField_bad_table {t : List (String × TomlValue)}
    {kvs : List (String × TomlValue)}
    (h : t.lookup "theme_overrides" = some (TomlValue.table kvs))
    (hm : asStringMap kvs = none) :
    ∀ x, parseThemeOverridesField t ≠ Except.ok x := by
  intro x hx
  simp [parseThemeOverridesField, h, hm] at hx

/-- An `error_interval` value of any non-integer shape fails to parse. -/
theorem parseErrorIntervalField_wrong_shape {t : List (String × TomlValue)}
    {v : TomlValue} (h : t.lookup "error_interval" = some v)
    (hv : ∀ n : Int, v ≠ TomlValue.int n) :
    ∀ x, parseErrorIntervalField t ≠ Except.ok x := by
  intro x hx
  cases v with
  | int n => exact hv n rfl
  | str s => simp [parseErrorIntervalField, h] at hx
  | bool b => simp [parseErrorIntervalField, h] at hx
  | arr xs => simp [parseErrorIntervalField, h] at hx
  | table kvs => simp [parseErrorIntervalField, h] at hx

/-- A negative `error_interval` integer cannot convert to u64 and fails to
parse. -/
theorem parseErrorIntervalField_neg {t : List (String × TomlValue)}
    {n : Int} (h : t.lookup "error_interval" = some (TomlValue.int n))
    (hn : n < 0) :
    ∀ x, parseErrorIntervalField t ≠ Except.ok x := by
  intro x hx
  simp [parseErrorIntervalField, h, show ¬(0 ≤ n) from by omega] at hx

/-- An `error_format` value of any non-string shape fails to parse. -/
theorem parseErrorFormatField_wrong_shape {t : List (String × TomlValue)}
    {v : TomlValue} (h : t.lookup "error_format" = some v)
    (hv : ∀ s, v ≠ TomlValue.str s) :
    ∀ x, parseErrorFormatField t ≠ Except.ok x := by
  intro x hx
  cases v with
  | str s => exact hv s rfl
  | int n => simp [parseErrorFormatField, h] at hx
  | bool b => simp [parseErrorFormatField, h] at hx
  | arr xs => simp [parseErrorFormatField, h] at hx
  | table kvs => simp [parseErrorFormatField, h] at hx

/-- Filtering by a key predicate the key satisfies preserves how many
entries carry that key. -/
theorem countP_filter_key {β : Type} (f : String → Bool)
    (t : List (String × β)) (k : String) (hk : f k = true) :
    ((t.filter fun q => f q.1).countP fun q => q.1 == k)
      = t.countP fun q => q.1 == k := by
  induction t with
  | nil => rfl
  | cons q rest ih =>
    obtain ⟨k', v⟩ := q
    by_cases h : k' = k
    · subst h
      simp [List.filter_cons, hk, List.countP_cons, ih]
    · cases hf : f k' <;>
        simp [List.filter_cons, hf, List.countP_cons, beq_iff_eq, h, ih]

/-- Counterexample to C7 as stated: the claim says every missing
recognized field other than error-interval defaults to absent/empty, but
the kind field (`block`) has no default — extracting shared config from a
table that lacks it is a configuration error, not a success with an
absent kind. -/
theorem commonConfig_missing_kind_counterexample :
    ((CommonConfig.new { maildir := true, notmuch := true }
        (TomlValue.table [("foo", TomlValue.int 1)])).2).isOk = false := rfl

/-- C7 (amended): `CommonConfig::new` on a table moves exactly the
recognized field names out of the document: every unrecognized field keeps
its lookup and its number of occurrences and the remainder is a sublist of
the original (present, unmodified, unduplicated), while every recognized
name is gone from it; a missing `error_interval` defaults to 5 and a
present nonnegative integer one is taken as-is; missing click, signal,
icons_format, theme_overrides and error_format default to empty/absent; a
missing kind (`block`) is a configuration error, and so is every
recognized field present with the wrong shape: a non-string kind, a
non-array click, a non-integer (or out-of-i32-range) signal, a non-string
icons_format, a theme_overrides that is not a table or is a table holding
a non-string value, a non-integer (or negative) error_interval, and a
non-string error_format. -/
theorem commonConfig_new_spec (f : Features) (t : List (String × TomlValue)) :
    ((CommonConfig.new f (TomlValue.table t)).1
        = TomlValue.table (t.filter fun q => !(commonFields.contains q.1)) ∧
      List.Sublist (t.filter fun q => !(commonFields.contains q.1)) t ∧
      (∀ k, commonFields.contains k = false →
        (t.filter fun q => !(commonFields.contains q.1)).lookup k = t.lookup k) ∧
      (∀ k, commonFields.contains k = true →
        (t.filter fun q => !(commonFields.contains q.1)).lookup k = none) ∧
      (∀ k, commonFields.contains k = false →
        ((t.filter fun q => !(commonFields.contains q.1)).countP fun q => q.1 == k)
          = t.countP fun q => q.1 == k)) ∧
    (t.lookup "block" = none →
      ((CommonConfig.new f (TomlValue.table t)).2).isOk = false) ∧
    (∀ cfg, (CommonConfig.new f (TomlValue.table t)).2 = Except.ok cfg →
      (t.lookup "error_interval" = none → cfg.error_interval = 5) ∧
      (∀ n : Int, 0 ≤ n → t.lookup "error_interval" = some (TomlValue.int n) →
        cfg.error_interval = n.toNat) ∧
      (t.lookup "signal" = none → cfg.signal = none) ∧
      (t.lookup "icons_format" = none → cfg.icons_format = none) ∧
      (t.lookup "theme_overrides" = none → cfg.theme_overrides = none) ∧
      (t.lookup "error_format" = none → cfg.error_format = none) ∧
      (t.lookup "click" = none → cfg.click.rules = [])) ∧
    (∀ v, t.lookup "block" = some v → (∀ s, v ≠ TomlValue.str s) →
      ((CommonConfig.new f (TomlValue.table t)).2).isOk = false) ∧
    (∀ v, t.lookup "click" = some v → (∀ xs, v ≠ TomlValue.arr xs) →
      ((CommonConfig.new f (TomlValue.table t)).2).isOk = false) ∧
    (∀ v, t.lookup "signal" = some v → (∀ n : Int, v ≠ TomlValue.int n) →
      ((CommonConfig.new f (TomlValue.table t)).2).isOk = false) ∧
    (∀ n : Int, t.lookup "signal" = some (TomlValue.int n) →
      ¬(-2147483648 ≤ n ∧ n < 2147483648) →
      ((CommonConfig.new f (TomlValue.table t)).2).isOk = false) ∧
    (∀ v, t.lookup "icons_format" = some v → (∀ s, v ≠ TomlValue.str s) →
      ((CommonConfig.new f (TomlValue.table t)).2).isOk = false) ∧
    (∀ v, t.lookup "theme_overrides" = some v → (∀ kvs, v ≠ TomlValue.table kvs) →
      ((CommonConfig.new f (TomlValue.table t)).2).isOk = false) ∧
    (∀ kvs, t.lookup "theme_overrides" = some (TomlValue.table kvs) →
      asStringMap kvs = none →
      ((CommonConfig.new f (TomlValue.table t)).2).isOk = false) ∧
    (∀ v, t.lookup "error_interval" = some v → (∀ n : Int, v ≠ TomlValue.int n) →
      ((CommonConfig.new f (TomlValue.table t)).2).isOk = false) ∧
    (∀ n : Int, t.lookup "error_interval" = some (TomlValue.int n) → n < 0 →
      ((CommonConfig.new f (TomlValue.table t)).2).isOk = false) ∧
    (∀ v, t.lookup "error_format" = some v → (∀ s, v ≠ TomlValue.str s) →
      ((CommonConfig.new f (TomlValue.table t)).2).isOk = false) := by
  have hml : ∀ k, commonFields.contains k = true →
      (t.filter fun q => commonFields.contains q.1).lookup k = t.lookup k :=
    fun k hk => lookup_filter_key _ t k hk
  refine ⟨⟨rfl, List.filter_sublist t, ?_, ?_, ?_⟩,
    ?_, ?_, ?_, ?_, ?_, ?_, ?_, ?_, ?_, ?_, ?_, ?_⟩
  · intro k hk
    exact lookup_filter_key (fun s => !(commonFields.contains s)) t k
      (by show (!(commonFields.contains k)) = true; rw [hk]; rfl)
  · intro k hk
    exact lookup_filter_key_neg (fun s => !(commonFields.contains s)) t k
      (by show (!(commonFields.contains k)) = false; rw [hk]; rfl)
  · intro k hk
    exact countP_filter_key (fun s => !(commonFields.contains s)) t k
      (by show (!(commonFields.contains k)) = true; rw [hk]; rfl)
  · intro hb
    rw [Bool.eq_false_iff]
    intro hok
    obtain ⟨cfg, hcfg⟩ := (except_isOk_iff _).mp hok
    simp only [CommonConfig.new] at hcfg
    have hpb := (deserialize_eq_ok.mp hcfg).1
    rw [parseBlockField_none (by rw [hml "block" (by decide)]; exact hb)] at hpb
    exact Except.noConfusion hpb
  · intro cfg hcfg
    simp only [CommonConfig.new] at hcfg
    have H := deserialize_eq_ok.mp hcfg
    refine ⟨?_, ?_, ?_, ?_, ?_, ?_, ?_⟩
    · intro h
      have hp := H.2.2.2.2.2.1
      rw [parseErrorIntervalField_none
        (by rw [hml "error_interval" (by decide)]; exact h)] at hp
      exact ((Except.ok.injEq _ _).mp hp).symm
    · intro n hn h
      have hp := H.2.2.2.2.2.1
      rw [parseErrorIntervalField_int
        (by rw [hml "error_interval" (by decide)]; exact h) hn] at hp
      exact ((Except.ok.injEq _ _).mp hp).symm
    · intro h
      have hp := H.2.2.1
      rw [parseSignalField_none
        (by rw [hml "signal" (by decide)]; exact h)] at hp
      exact ((Except.ok.injEq _ _).mp hp).symm
    · intro h
      have hp := H.2.2.2.2.1
      rw [parseIconsFormatField_none
        (by rw [hml "icons_format" (by decide)]; exact h)] at hp
      exact ((Except.ok.injEq _ _).mp hp).symm
    · intro h
      have hp := H.2.2.2.1
      rw [parseThemeOverridesField_none
        (by rw [hml "theme_overrides" (by decide)]; exact h)] at hp
      exact ((Except.ok.injEq _ _).mp hp).symm
    · intro h
      have hp := H.2.2.2.2.2.2
      rw [parseErrorFormatField_none
        (by rw [hml "error_format" (by decide)]; exact h)] at hp
      exact ((Except.ok.injEq _ _).mp hp).symm
    · intro h
      have hp := H.2.1
      rw [parseClickField_none
        (by rw [hml "click" (by decide)]; exact h)] at hp
      exact (congrArg ClickHandler.rules ((Except.ok.injEq _ _).mp hp)).symm
  · intro v hvl hv
    rw [Bool.eq_false_iff]
    intro hok
    obtain ⟨cfg, hcfg⟩ := (except_isOk_iff _).mp hok
    simp only [CommonConfig.new] at hcfg
    exact parseBlockField_wrong_shape
      (by rw [hml "block" (by decide)]; exact hvl) hv _ (deserialize_eq_ok.mp hcfg).1
  · intro v hvl hv
    rw [Bool.eq_false_iff]
    intro hok
    obtain ⟨cfg, hcfg⟩ := (except_isOk_iff _).mp hok
    simp only [CommonConfig.new] at hcfg
    exact parseClickField_wrong_shape
      (by rw [hml "click" (by decide)]; exact hvl) hv _ (deserialize_eq_ok.mp hcfg).2.1
  · intro v hvl hv
    rw [Bool.eq_false_iff]
    intro hok
    obtain ⟨cfg, hcfg⟩ := (except_isOk_iff _).mp hok
    simp only [CommonConfig.new] at hcfg
    exact parseSignalField_wrong_shape
      (by rw [hml "signal" (by decide)]; exact hvl) hv _
      (deserialize_eq_ok.mp hcfg).2.2.1
  · intro n hnl hn
    rw [Bool.eq_false_iff]
    intro hok
    obtain ⟨cfg, hcfg⟩ := (except_isOk_iff _).mp hok
    simp only [CommonConfig.new] at hcfg
    exact parseSignalField_out_of_range
      (by rw [hml "signal" (by decide)]; exact hnl) hn _
      (deserialize_eq_ok.mp hcfg).2.2.1
  · intro v hvl hv
    rw [Bool.eq_false_iff]
    intro hok
    obtain ⟨cfg, hcfg⟩ := (except_isOk_iff _).mp hok
    simp only [CommonConfig.new] at hcfg
    exact parseIconsFormatField_wrong_shape
      (by rw [hml "icons_format" (by decide)]; exact hvl) hv _
      (deserialize_eq_ok.mp hcfg).2.2.2.2.1
  · intro v hvl hv
    rw [Bool.eq_false_iff]
    intro hok
    obtain ⟨cfg, hcfg⟩ := (except_isOk_iff _).mp hok
    simp only [CommonConfig.new] at hcfg
    exact parseThemeOverridesField_wrong_shape
      (by rw [hml "theme_overrides" (by decide)]; exact hvl) hv _
      (deserialize_eq_ok.mp hcfg).2.2.2.1
  · intro kvs hkl hm
    rw [Bool.eq_false_iff]
    intro hok
    obtain ⟨cfg, hcfg⟩ := (except_isOk_iff _).mp hok
    simp only [CommonConfig.new] at hcfg
    exact parseThemeOverridesField_bad_table
      (by rw [hml "theme_overrides" (by decide)]; exact hkl) hm _
      (deserialize_eq_ok.mp hcfg).2.2.2.1
  · intro v hvl hv
    rw [Bool.eq_false_iff]
    intro hok
    obtain ⟨cfg, hcfg⟩ := (except_isOk_iff _).mp hok
    simp only [CommonConfig.new] at hcfg
    exact parseErrorIntervalField_wrong_shape
      (by rw [hml "error_interval" (by decide)]; exact hvl) hv _
      (deserialize_eq_ok.mp hcfg).2.2.2.2.2.1
  · intro n hnl hn
    rw [Bool.eq_false_iff]
    intro hok
    obtain ⟨cfg, hcfg⟩ := (except_isOk_iff _).mp hok
    simp only [CommonConfig.new] at hcfg
    exact parseErrorIntervalField_neg
      (by rw [hml "error_interval" (by decide)]; exact hnl) hn _
      (deserialize_eq_ok.mp hcfg).2.2.2.2.2.1
  · intro v hvl hv
    rw [Bool.eq_false_iff]
    intro hok
    obtain ⟨cfg, hcfg⟩ := (except_isOk_iff _).mp hok
    simp only [CommonConfig.new] at hcfg
    exact parseErrorFormatField_wrong_shape
      (by rw [hml "error_format" (by decide)]; exact hvl) hv _
      (deserialize_eq_ok.mp hcfg).2.2.2.2.2.2

/-- Witness for the amended C7: extracting from a concrete document with
kind "time", error-interval 10 and one unrelated field succeeds with
errorInterval 10 and leaves exactly the unrelated field behind; a concrete
document whose `signal` is a string is a configuration error. -/
theorem commonConfig_new_spec_witness :
    (CommonConfig.new { maildir := true, notmuch := true }
        (TomlValue.table [("block", TomlValue.str "time"),
          ("error_interval", TomlValue.int 10),
          ("foo", TomlValue.str "bar")])).1
      = TomlValue.table [("foo", TomlValue.str "bar")] ∧
    (∃ cfg : CommonConfig,
      (CommonConfig.new { maildir := true, notmuch := true }
          (TomlValue.table [("block", TomlValue.str "time"),
            ("error_interval", TomlValue.int 10),
            ("foo", TomlValue.str "bar")])).2 = Except.ok cfg ∧
      cfg.error_interval = 10) ∧
    ((CommonConfig.new { maildir := true, notmuch := true }
        (TomlValue.table [("block", TomlValue.str "time"),
          ("signal", TomlValue.str "USR1")])).2).isOk = false := by
  refine ⟨rfl, ⟨(⟨BlockType.time, ⟨[]⟩, none, none, none, 10, none⟩ : CommonConfig),
    rfl, ?_⟩, ?_⟩
  · exact ((commonConfig_new_spec { maildir := true, notmuch := true }
        [("block", TomlValue.str "time"), ("error_interval", TomlValue.int 10),
         ("foo", TomlValue.str "bar")]).2.2.1 _ rfl).2.1 10 (by decide) rfl
  · exact (commonConfig_new_spec { maildir := true, notmuch := true }
        [("block", TomlValue.str "time"), ("signal", TomlValue.str "USR1")]).2.2.2.2.2.1
      (TomlValue.str "USR1") rfl (fun n h => TomlValue.noConfusion h)

end I3statusRust
